import Mathlib

/-!
Verification of the `miai` repository's conversation-decoding core and its
CLI session/device resolver, against the natural-language specification.

The development shallowly embeds the Rust code:

* `src/miai/src/conversation.rs` — the serde-derived decoder for `Answer`
  (struct with `kind` renamed from the JSON key `type`, a captured
  `bit_set` field from key `bitSet`, and a `#[serde(flatten)]`-ed
  `AnswerPayload` enum whose tagged variants `Tts`/`Llm` carry a `text`
  field and whose `Unknown` variant is `#[serde(untagged)]`), plus the
  `Record` and `Data` containers.
* `src/miai/src/xiaoai/conversation.rs` — the legacy
  `ConversationRecord::from_value` decoder.
* `src/cli/src/main.rs` — the memoized `Cli::xiaoai` / `Cli::device_info`
  cells and `Cli::device_id` resolution.

JSON values are modelled with integer numbers only; none of the claims
involve floating-point numbers.  JSON objects are association lists in
insertion order; objects produced by `serde_json` always have distinct
keys, and theorems that depend on this carry a `Nodup` hypothesis.
-/

/-- JSON value tree, the shallow embedding of `serde_json::Value`
(numbers restricted to integers, which covers every input relevant to
the claims). -/
inductive Json where
  | null
  | bool (b : Bool)
  | num (n : Int)
  | str (s : String)
  | arr (items : List Json)
  | obj (fields : List (String × Json))

/-- Decoding errors.  The Rust code surfaces all of these as a single
`serde_json::Error`; the constructors record which check failed
(the specification's `MalformedAnswer` condition is any decode error). -/
inductive DecodeError where
  | notAnObject
  | missingField (name : String)
  | invalidField (name : String)
  | duplicateField (name : String)
deriving DecidableEq

/-- Payload of an answer, embedding the Rust enum `AnswerPayload`
(serde externally tagged with variant names `tts` / `llm` after the
`camelCase` rename, plus the `#[serde(untagged)]` fallback `Unknown`
holding the raw field map). -/
inductive AnswerPayload where
  | Tts (text : String)
  | Llm (text : String)
  | Unknown (fields : List (String × Json))

/-- One assistant answer, embedding the Rust struct `Answer`:
`kind` is read from the JSON key `type`, `bit_set` from `bitSet`
(captured so that the flattened enum sees only the remaining keys),
and `payload` is `#[serde(flatten)]`-ed. -/
structure Answer where
  kind : String
  bit_set : Option (List Nat)
  payload : AnswerPayload

/-- First value bound to `key` in an object's field list. -/
def findJson : List (String × Json) → String → Option Json
  | [], _ => none
  | (k, v) :: m, key => if k = key then some v else findJson m key

/-- Decode a `Vec<u8>` element list: every element must be an integer
in `0..=255` (`serde_json`'s `u8` deserialization). -/
def bytesAux : List Json → Option (List Nat)
  | [] => some []
  | .num n :: rest =>
    if 0 ≤ n ∧ n < 256 then
      match bytesAux rest with
      | some ns => some (n.toNat :: ns)
      | none => none
    else none
  | _ :: _ => none

/-- Decode a JSON value as a `Vec<u8>`: must be an array of bytes. -/
def decodeBytes : Json → Option (List Nat)
  | .arr items => bytesAux items
  | _ => none

/-- Text extraction for the struct shape `{ text: String }` — the
content of the tagged variants `Tts`/`Llm` and of the legacy `Payload`.
Serde deserializes a struct either from a map, whose `text` entry must
be a string (other entries are ignored, serde's default), or
positionally from a sequence, which must then consist of exactly the
one `text` element, a string (fewer or trailing elements, or a
non-string element, are length/type errors). -/
def textOf : Json → Option String
  | .obj inner =>
    match findJson inner "text" with
    | some (.str s) => some s
    | _ => none
  | .arr [.str s] => some s
  | _ => none

/-- Deserialization of the flattened `AnswerPayload` from the fields the
outer struct did not consume.  Serde's externally tagged representation
requires the remaining map to hold exactly one entry whose key names a
tagged variant; any failure in that path falls back to the
`#[serde(untagged)]` variant `Unknown`, which captures the remaining
fields verbatim (and never fails on a map). -/
def mkPayload : List (String × Json) → AnswerPayload
  | [(k, v)] =>
    if k = "tts" then
      match textOf v with
      | some s => .Tts s
      | none => .Unknown [(k, v)]
    else if k = "llm" then
      match textOf v with
      | some s => .Llm s
      | none => .Unknown [(k, v)]
    else .Unknown [(k, v)]
  | rest => .Unknown rest

/-- Serde's map visitor for the `Answer` struct: fields are processed in
object order; `type` must be a string, `bitSet` (if present) must be
null or a byte array, every other entry is buffered for the flattened
payload; a duplicate or ill-typed bookkeeping field fails eagerly and a
missing `type` fails once the map is exhausted. -/
def decodeAnswerFields :
    List (String × Json) → Option String → Option (Option (List Nat)) →
    List (String × Json) →
    Except DecodeError (String × Option (List Nat) × List (String × Json))
  | [], ty?, bits?, acc =>
    match ty? with
    | none => .error (.missingField "type")
    | some t => .ok (t, bits?.getD none, acc.reverse)
  | (k, v) :: m, ty?, bits?, acc =>
    if k = "type" then
      match ty? with
      | some _ => .error (.duplicateField "type")
      | none =>
        match v with
        | .str s => decodeAnswerFields m (some s) bits? acc
        | _ => .error (.invalidField "type")
    else if k = "bitSet" then
      match bits? with
      | some _ => .error (.duplicateField "bitSet")
      | none =>
        match v with
        | .null => decodeAnswerFields m ty? (some none) acc
        | _ =>
          match decodeBytes v with
          | some bs => decodeAnswerFields m ty? (some (some bs)) acc
          | none => .error (.invalidField "bitSet")
    else decodeAnswerFields m ty? bits? ((k, v) :: acc)

/-- Decoding one answer object, the embedding of
`serde_json::from_value::<Answer>`. -/
def decodeAnswer : Json → Except DecodeError Answer
  | .obj m =>
    match decodeAnswerFields m none none [] with
    | .ok (t, bits, rest) => .ok ⟨t, bits, mkPayload rest⟩
    | .error e => .error e
  | _ => .error .notAnObject

/-- Serialization of the captured `bitSet` field: `None` serializes as
JSON `null` (the field carries no `skip_serializing_if` attribute). -/
def encodeBits : Option (List Nat) → Json
  | none => .null
  | some bs => .arr (bs.map (fun n => .num (Int.ofNat n)))

/-- Serialization of the payload: tagged variants nest their fields under
the variant key, the untagged `Unknown` spreads its captured fields. -/
def encodePayloadFields : AnswerPayload → List (String × Json)
  | .Tts s => [("tts", .obj [("text", .str s)])]
  | .Llm s => [("llm", .obj [("text", .str s)])]
  | .Unknown fields => fields

/-- Re-encoding an `Answer`: struct fields in declaration order, with the
flattened payload fields appended. -/
def encodeAnswer (a : Answer) : Json :=
  .obj (("type", .str a.kind) :: ("bitSet", encodeBits a.bit_set) ::
    encodePayloadFields a.payload)

/-- Fields surviving the `Answer` struct's own consumption: everything
except `type` and `bitSet`, in order. -/
def stripMeta (m : List (String × Json)) : List (String × Json) :=
  m.filter (fun p => !(p.1 == "type" || p.1 == "bitSet"))

/-- Outcome of reading the `bitSet` field by lookup rather than by
scanning; used to characterize `decodeAnswerFields`. -/
def bitsOf (m : List (String × Json)) : Except DecodeError (Option (List Nat)) :=
  match findJson m "bitSet" with
  | none => .ok none
  | some .null => .ok none
  | some v =>
    match decodeBytes v with
    | some bs => .ok (some bs)
    | none => .error (.invalidField "bitSet")

/-- Boolean failure test on a decode result. -/
def isErr {α : Type} : Except DecodeError α → Bool
  | .error _ => true
  | .ok _ => false

/-- Specification-facing test: the discriminant field `type` is missing
or bound to a non-string value. -/
def typeFieldBad (m : List (String × Json)) : Bool :=
  match findJson m "type" with
  | some (.str _) => false
  | _ => true

/-- Precondition on the visitor's `type` accumulator relative to the
fields still to be scanned. -/
def TyInv (m : List (String × Json)) (ty? : Option String) (t : String) : Prop :=
  match ty? with
  | some t' => t' = t ∧ "type" ∉ m.map Prod.fst
  | none => findJson m "type" = some (.str t) ∧ (m.map Prod.fst).count "type" = 1

/-- Precondition on the visitor's `bitSet` accumulator relative to the
fields still to be scanned. -/
def BitsInv (m : List (String × Json)) (bits? : Option (Option (List Nat)))
    (bits : Option (List Nat)) : Prop :=
  match bits? with
  | some b => b = bits ∧ "bitSet" ∉ m.map Prod.fst
  | none => bitsOf m = .ok bits ∧ (m.map Prod.fst).count "bitSet" ≤ 1

/-- One conversation record, embedding the Rust struct `Record`
(`camelCase` field renames; the serde `milliseconds` adapter reads the
`time` field as an epoch-millisecond integer, modelled as the raw
integer since no claim depends on calendar conversion). -/
structure Record where
  answers : List Answer
  query : String
  request_id : String
  time : Int

/-- The `data` object of a conversation response, embedding the Rust
struct `Data`. -/
structure Data where
  records : List Record

/-- Element-wise decoding of `Vec<Answer>`: serde sequence decoding is
fail-fast — the first failing element aborts the whole vector. -/
def decodeAnswers : List Json → Except DecodeError (List Answer)
  | [] => .ok []
  | x :: xs =>
    match decodeAnswer x with
    | .ok a =>
      match decodeAnswers xs with
      | .ok rest => .ok (a :: rest)
      | .error e => .error e
    | .error e => .error e

/-- Serde's map visitor for `Record`: each of `answers`, `query`,
`requestId` and `time` is required once with the right shape; unknown
fields are ignored. -/
def recordFields :
    List (String × Json) → Option (List Answer) → Option String →
    Option String → Option Int → Except DecodeError Record
  | [], ans?, q?, rid?, t? =>
    match ans?, q?, rid?, t? with
    | some a, some q, some r, some t => .ok ⟨a, q, r, t⟩
    | none, _, _, _ => .error (.missingField "answers")
    | _, none, _, _ => .error (.missingField "query")
    | _, _, none, _ => .error (.missingField "requestId")
    | _, _, _, none => .error (.missingField "time")
  | (k, v) :: m, ans?, q?, rid?, t? =>
    if k = "answers" then
      match ans? with
      | some _ => .error (.duplicateField "answers")
      | none =>
        match v with
        | .arr xs =>
          match decodeAnswers xs with
          | .ok a => recordFields m (some a) q? rid? t?
          | .error e => .error e
        | _ => .error (.invalidField "answers")
    else if k = "query" then
      match q? with
      | some _ => .error (.duplicateField "query")
      | none =>
        match v with
        | .str s => recordFields m ans? (some s) rid? t?
        | _ => .error (.invalidField "query")
    else if k = "requestId" then
      match rid? with
      | some _ => .error (.duplicateField "requestId")
      | none =>
        match v with
        | .str s => recordFields m ans? q? (some s) t?
        | _ => .error (.invalidField "requestId")
    else if k = "time" then
      match t? with
      | some _ => .error (.duplicateField "time")
      | none =>
        match v with
        | .num n => recordFields m ans? q? rid? (some n)
        | _ => .error (.invalidField "time")
    else recordFields m ans? q? rid? t?

/-- Decoding one record object. -/
def decodeRecord : Json → Except DecodeError Record
  | .obj m => recordFields m none none none none
  | _ => .error .notAnObject

/-- Element-wise decoding of `Vec<Record>`, fail-fast like any serde
sequence. -/
def decodeRecords : List Json → Except DecodeError (List Record)
  | [] => .ok []
  | x :: xs =>
    match decodeRecord x with
    | .ok r =>
      match decodeRecords xs with
      | .ok rest => .ok (r :: rest)
      | .error e => .error e
    | .error e => .error e

/-- Serde's map visitor for `Data`: the single required field is
`records`, an array of records. -/
def dataFields : List (String × Json) → Option (List Record) → Except DecodeError Data
  | [], some rs => .ok ⟨rs⟩
  | [], none => .error (.missingField "records")
  | (k, v) :: m, rs? =>
    if k = "records" then
      match rs? with
      | some _ => .error (.duplicateField "records")
      | none =>
        match v with
        | .arr xs =>
          match decodeRecords xs with
          | .ok rs => dataFields m (some rs)
          | .error e => .error e
        | _ => .error (.invalidField "records")
    else dataFields m rs?

/-- Decoding the whole `data` object, the embedding of
`serde_json::from_value::<Data>`. -/
def decodeData : Json → Except DecodeError Data
  | .obj m => dataFields m none
  | _ => .error .notAnObject

/-- One legacy conversation record, embedding the Rust struct
`ConversationRecord` (the `answer` field is `#[serde(skip)]` and
defaults to the empty string; the private `answers` list keeps the raw
values). -/
structure ConversationRecord where
  answer : String
  query : String
  request_id : String
  time : Int
  answers : List Json

/-- Serde's map visitor for `ConversationRecord`: `query`, `requestId`,
`time` and `answers` are each required once; `answer` is skipped (so an
`answer` key in the input is just an unknown field and is ignored);
other unknown fields are ignored as well. -/
def legacyFields :
    List (String × Json) → Option String → Option String → Option Int →
    Option (List Json) → Except DecodeError ConversationRecord
  | [], q?, rid?, t?, ans? =>
    match q?, rid?, t?, ans? with
    | some q, some r, some t, some a => .ok ⟨"", q, r, t, a⟩
    | none, _, _, _ => .error (.missingField "query")
    | _, none, _, _ => .error (.missingField "requestId")
    | _, _, none, _ => .error (.missingField "time")
    | _, _, _, none => .error (.missingField "answers")
  | (k, v) :: m, q?, rid?, t?, ans? =>
    if k = "query" then
      match q? with
      | some _ => .error (.duplicateField "query")
      | none =>
        match v with
        | .str s => legacyFields m (some s) rid? t? ans?
        | _ => .error (.invalidField "query")
    else if k = "requestId" then
      match rid? with
      | some _ => .error (.duplicateField "requestId")
      | none =>
        match v with
        | .str s => legacyFields m q? (some s) t? ans?
        | _ => .error (.invalidField "requestId")
    else if k = "time" then
      match t? with
      | some _ => .error (.duplicateField "time")
      | none =>
        match v with
        | .num n => legacyFields m q? rid? (some n) ans?
        | _ => .error (.invalidField "time")
    else if k = "answers" then
      match ans? with
      | some _ => .error (.duplicateField "answers")
      | none =>
        match v with
        | .arr xs => legacyFields m q? rid? t? (some xs)
        | _ => .error (.invalidField "answers")
    else legacyFields m q? rid? t? ans?

/-- The derived `Deserialize` part of the legacy record decoder. -/
def decodeLegacyBase : Json → Except DecodeError ConversationRecord
  | .obj m => legacyFields m none none none none
  | _ => .error .notAnObject

/-- The embedding of `serde_json::Value::get`: key lookup on objects,
`none` on anything else. -/
def getKey : Json → String → Option Json
  | .obj m, k => findJson m k
  | _, _ => none

/-- Replace the value bound to the first occurrence of `key` (the
embedding of the mutation performed by `get_mut(..)` / `Value::take`,
which leaves `Null` behind). -/
def setAssoc : List (String × Json) → String → Json → List (String × Json)
  | [], _, _ => []
  | (k', v) :: m, k, newV =>
    if k' = k then (k', newV) :: m else (k', v) :: setAssoc m k newV

/-- Write through `getKey`: only changes objects that have the key. -/
def setKey : Json → String → Json → Json
  | .obj m, k, newV => .obj (setAssoc m k newV)
  | j, _, _ => j

/-- ASCII lowercasing, the embedding of `str::to_ascii_lowercase`
(Lean's `Char.toLower` also only maps `A`-`Z`). -/
def lowerAscii (s : String) : String := ⟨s.data.map Char.toLower⟩

/-- The string value of an answer's `type` field, when it is a string. -/
def typeStr (a : Json) : Option String :=
  match getKey a "type" with
  | some (.str s) => some s
  | _ => none

/-- The embedding of `ConversationRecord::from_value`: after the derived
decode, look into the first answer; if it has a string `type` whose
ASCII-lowercase names a key of the same answer, parse that key's value
as `Payload { text }` (taking the value, which leaves `Null` behind)
and store the text in `answer`; otherwise leave `answer` empty.  A
present payload key that fails to parse propagates the error. -/
def fromValue (v : Json) : Except DecodeError ConversationRecord :=
  match decodeLegacyBase v with
  | .error e => .error e
  | .ok r0 =>
    match r0.answers with
    | [] => .ok r0
    | a :: rest =>
      match typeStr a with
      | some ty =>
        match getKey a (lowerAscii ty) with
        | some payload =>
          match textOf payload with
          | some text =>
            .ok { r0 with
                  answer := text
                  answers := (setKey a (lowerAscii ty) Json.null) :: rest }
          | none => .error (.invalidField "text")
        | none => .ok r0
      | none => .ok r0

/-- Opaque authenticated handle (the `Xiaoai` client); its contents are
irrelevant to the resolver logic. -/
structure Xiaoai where
  token : Nat
deriving DecidableEq

/-- Device information, with the fields the CLI reads (`device_id`,
`name`, `hardware`). -/
structure DeviceInfo where
  device_id : String
  name : String
  hardware : String
deriving DecidableEq

/-- Failures of the CLI collaborators, the embedding of the `anyhow`
errors produced on each path. -/
inductive CliErr where
  | loadFailed
  | fetchFailed
  | noDevicesBound
  | inputCancelled
deriving DecidableEq

/-- The external collaborators of one invocation: the credential-store
load (`Xiaoai::load`), the device-list fetch (`Xiaoai::device_info`)
and the interactive selector (`Select::prompt`).  Each is deterministic
within an invocation. -/
structure Env where
  loadResult : Except CliErr Xiaoai
  fetchResult : Except CliErr (List DeviceInfo)
  selectResult : List DeviceInfo → Except CliErr DeviceInfo

/-- The mutable state of a `Cli` value plus instrumentation: the two
memoization cells (`once_cell::unsync::OnceCell<Xiaoai>` and
`tokio::sync::OnceCell<Vec<DeviceInfo>>`) and counters of how many
times each collaborator has been invoked. -/
structure St where
  xiaoaiCell : Option Xiaoai
  deviceCell : Option (List DeviceInfo)
  loads : Nat
  fetches : Nat
  selects : Nat
deriving DecidableEq

/-- Count one credential-store load attempt. -/
def bumpLoad (st : St) : St := { st with loads := st.loads + 1 }

/-- Count one device-list fetch attempt. -/
def bumpFetch (st : St) : St := { st with fetches := st.fetches + 1 }

/-- Count one interactive selection. -/
def bumpSelect (st : St) : St := { st with selects := st.selects + 1 }

/-- The embedding of `Cli::xiaoai`: `OnceCell::get_or_try_init` returns
the cached value if the cell is filled; otherwise it runs the
initializer, caching the value only on success — a failed initializer
leaves the cell empty. -/
def cliXiaoai (env : Env) (st : St) : Except CliErr Xiaoai × St :=
  match st.xiaoaiCell with
  | some x => (.ok x, st)
  | none =>
    match env.loadResult with
    | .ok x => (.ok x, { bumpLoad st with xiaoaiCell := some x })
    | .error e => (.error e, bumpLoad st)

/-- The embedding of `Cli::device_info`: `tokio::sync::OnceCell` with
the same non-caching of failures; the initializer first needs the
session, so a session load may happen (and its failure propagates
without any fetch attempt). -/
def cliDeviceInfo (env : Env) (st : St) : Except CliErr (List DeviceInfo) × St :=
  match st.deviceCell with
  | some l => (.ok l, st)
  | none =>
    match cliXiaoai env st with
    | (.ok _, st') =>
      match env.fetchResult with
      | .ok l => (.ok l, { bumpFetch st' with deviceCell := some l })
      | .error e => (.error e, bumpFetch st')
    | (.error e, st') => (.error e, st')

/-- The embedding of `Cli::device_id`: an explicit identifier is
returned at once; otherwise the memoized device list decides — empty
fails with the no-devices error, a singleton is picked silently, more
than one goes through the selector. -/
def cliDeviceId (env : Env) (explicit : Option String) (st : St) :
    Except CliErr String × St :=
  match explicit with
  | some id => (.ok id, st)
  | none =>
    match cliDeviceInfo env st with
    | (.error e, st') => (.error e, st')
    | (.ok l, st') =>
      match l with
      | [] => (.error .noDevicesBound, st')
      | [d] => (.ok d.device_id, st')
      | _ =>
        let st'' := bumpSelect st'
        match env.selectResult l with
        | .ok d => (.ok d.device_id, st'')
        | .error e => (.error e, st'')

lemma findJson_mem {m : List (String × Json)} {k : String} {v : Json}
    (h : findJson m k = some v) : k ∈ m.map Prod.fst := by
  induction m with
  | nil => simp [findJson] at h
  | cons p m ih =>
    obtain ⟨k', v'⟩ := p
    by_cases hk : k' = k
    · subst hk; simp
    · simp only [findJson, if_neg hk] at h
      simpa using Or.inr (ih h)

lemma stripMeta_no_meta (m : List (String × Json)) :
    "type" ∉ (stripMeta m).map Prod.fst ∧ "bitSet" ∉ (stripMeta m).map Prod.fst := by
  constructor <;>
  · simp only [stripMeta, List.mem_map, List.mem_filter]
    rintro ⟨⟨k, v⟩, ⟨hmem, hpred⟩, rfl⟩
    simp at hpred

lemma findJson_cons_ne {k key : String} {v : Json} {m : List (String × Json)}
    (hne : k ≠ key) : findJson ((k, v) :: m) key = findJson m key := by
  simp [findJson, hne]

lemma bitsOf_cons_ne {k : String} {v : Json} {m : List (String × Json)}
    (hne : k ≠ "bitSet") : bitsOf ((k, v) :: m) = bitsOf m := by
  simp [bitsOf, findJson, hne]

lemma stripMeta_cons_type (v : Json) (m : List (String × Json)) :
    stripMeta (("type", v) :: m) = stripMeta m := by
  simp [stripMeta]

lemma stripMeta_cons_bits (v : Json) (m : List (String × Json)) :
    stripMeta (("bitSet", v) :: m) = stripMeta m := by
  simp [stripMeta]

lemma stripMeta_cons_other {k : String} (v : Json) (m : List (String × Json))
    (hk1 : k ≠ "type") (hk2 : k ≠ "bitSet") :
    stripMeta ((k, v) :: m) = (k, v) :: stripMeta m := by
  simp [stripMeta, List.filter_cons, hk1, hk2]

lemma tyInv_tail {k : String} {v : Json} {m : List (String × Json)}
    {ty? : Option String} {t : String} (hne : k ≠ "type")
    (h : TyInv ((k, v) :: m) ty? t) : TyInv m ty? t := by
  cases ty? with
  | some t' =>
    refine ⟨h.1, fun hm => h.2 ?_⟩
    simp only [List.map_cons, List.mem_cons]
    exact Or.inr hm
  | none =>
    refine ⟨?_, ?_⟩
    · rw [← findJson_cons_ne (v := v) (m := m) hne]; exact h.1
    · have := h.2
      rwa [List.map_cons, List.count_cons_of_ne (Ne.symm hne)] at this

lemma bitsInv_tail {k : String} {v : Json} {m : List (String × Json)}
    {bits? : Option (Option (List Nat))} {bits : Option (List Nat)}
    (hne : k ≠ "bitSet") (h : BitsInv ((k, v) :: m) bits? bits) :
    BitsInv m bits? bits := by
  cases bits? with
  | some b =>
    refine ⟨h.1, fun hm => h.2 ?_⟩
    simp only [List.map_cons, List.mem_cons]
    exact Or.inr hm
  | none =>
    refine ⟨?_, ?_⟩
    · rw [← bitsOf_cons_ne (v := v) (m := m) hne]; exact h.1
    · have := h.2
      rwa [List.map_cons, List.count_cons_of_ne (Ne.symm hne)] at this

/-- Characterization of the sequential field visitor: if the `type`
field occurs exactly once with a string value (relative to what the
accumulator state already consumed) and the `bitSet` field is absent,
unique and well-formed, the visitor succeeds and hands the remaining
fields, in order, to the flattened payload. -/
lemma decodeAnswerFields_ok (m : List (String × Json)) :
    ∀ (ty? : Option String) (bits? : Option (Option (List Nat)))
      (acc : List (String × Json)) (t : String) (bits : Option (List Nat)),
    TyInv m ty? t → BitsInv m bits? bits →
    decodeAnswerFields m ty? bits? acc = .ok (t, bits, acc.reverse ++ stripMeta m) := by
  induction m with
  | nil =>
    intro ty? bits? acc t bits hty hbits
    cases ty? with
    | none => exact absurd hty.1 (by simp [findJson])
    | some t' =>
      obtain ⟨rfl, -⟩ := hty
      cases bits? with
      | some b =>
        obtain ⟨rfl, -⟩ := hbits
        simp [decodeAnswerFields, stripMeta]
      | none =>
        have hb := hbits.1
        simp only [bitsOf, findJson] at hb
        rw [show bits = none from by cases hb; rfl]
        simp [decodeAnswerFields, stripMeta]
  | cons p m ih =>
    obtain ⟨k, v⟩ := p
    intro ty? bits? acc t bits hty hbits
    by_cases hk1 : k = "type"
    · subst hk1
      cases ty? with
      | some t' => exact absurd hty.2 (by simp)
      | none =>
        obtain ⟨hf, hc⟩ := hty
        simp only [findJson, if_pos rfl] at hf
        cases hf
        rw [List.map_cons, List.count_cons_self] at hc
        have hnot : "type" ∉ m.map Prod.fst :=
          List.count_eq_zero.mp (by omega)
        have hrec := ih (some t) bits? acc t bits ⟨rfl, hnot⟩
          (bitsInv_tail (by decide) hbits)
        simp [decodeAnswerFields, hrec, stripMeta_cons_type]
    · by_cases hk2 : k = "bitSet"
      · subst hk2
        cases bits? with
        | some b => exact absurd hbits.2 (by simp)
        | none =>
          obtain ⟨hb, hc'⟩ := hbits
          rw [List.map_cons, List.count_cons_self] at hc'
          have hnot : "bitSet" ∉ m.map Prod.fst :=
            List.count_eq_zero.mp (by omega)
          have hty' : TyInv m ty? t := tyInv_tail hk1 hty
          match v, hb with
          | .null, hb =>
            have hbn : bits = none := by
              simp [bitsOf, findJson] at hb
              exact hb.symm
            subst hbn
            have hrec := ih ty? (some none) acc t none hty' ⟨rfl, hnot⟩
            simp [decodeAnswerFields, hk1, hrec, stripMeta_cons_bits]
          | .bool b', hb => simp [bitsOf, findJson, decodeBytes] at hb
          | .num n', hb => simp [bitsOf, findJson, decodeBytes] at hb
          | .str s', hb => simp [bitsOf, findJson, decodeBytes] at hb
          | .obj o', hb => simp [bitsOf, findJson, decodeBytes] at hb
          | .arr xs, hb =>
            rcases hbs : bytesAux xs with _ | bs
            · simp [bitsOf, findJson, decodeBytes, hbs] at hb
            · have hbn : bits = some bs := by
                simp [bitsOf, findJson, decodeBytes, hbs] at hb
                exact hb.symm
              subst hbn
              have hrec := ih ty? (some (some bs)) acc t (some bs) hty' ⟨rfl, hnot⟩
              simp [decodeAnswerFields, hk1, decodeBytes, hbs, hrec, stripMeta_cons_bits]
      · have hty' : TyInv m ty? t := tyInv_tail hk1 hty
        have hbits' : BitsInv m bits? bits := bitsInv_tail hk2 hbits
        have hrec := ih ty? bits? ((k, v) :: acc) t bits hty' hbits'
        simp only [decodeAnswerFields, if_neg hk1, if_neg hk2]
        rw [hrec, stripMeta_cons_other v m hk1 hk2]
        simp

/-- Decoding an answer object whose `type` is a unique string field and
whose `bitSet` (if any) is unique and well-formed succeeds, with the
payload built from the remaining fields in order. -/
lemma decodeAnswer_obj (m : List (String × Json)) (t : String)
    (bits : Option (List Nat))
    (ht : findJson m "type" = some (.str t))
    (htc : (m.map Prod.fst).count "type" = 1)
    (hb : bitsOf m = .ok bits)
    (hbc : (m.map Prod.fst).count "bitSet" ≤ 1) :
    decodeAnswer (.obj m) = .ok ⟨t, bits, mkPayload (stripMeta m)⟩ := by
  have h := decodeAnswerFields_ok m none none [] t bits ⟨ht, htc⟩ ⟨hb, hbc⟩
  simp [decodeAnswer, h]

/-- As `decodeAnswer_obj`, with the key uniqueness supplied by a
`Nodup` hypothesis (always true of `serde_json` maps). -/
lemma decodeAnswer_obj_nodup (m : List (String × Json)) (t : String)
    (bits : Option (List Nat))
    (hnd : (m.map Prod.fst).Nodup)
    (ht : findJson m "type" = some (.str t))
    (hb : bitsOf m = .ok bits) :
    decodeAnswer (.obj m) = .ok ⟨t, bits, mkPayload (stripMeta m)⟩ :=
  decodeAnswer_obj m t bits ht
    (List.count_eq_one_of_mem hnd (findJson_mem ht))
    hb (List.nodup_iff_count_le_one.mp hnd "bitSet")

/-- If the `type` field is missing or non-string, the visitor fails
(whatever else the object contains, and from any accumulator state
still lacking a `type`). -/
lemma decodeAnswerFields_err (m : List (String × Json)) :
    ∀ (bits? : Option (Option (List Nat))) (acc : List (String × Json)),
    typeFieldBad m = true →
    isErr (decodeAnswerFields m none bits? acc) = true := by
  induction m with
  | nil => intro bits? acc _; simp [decodeAnswerFields, isErr]
  | cons p m ih =>
    obtain ⟨k, v⟩ := p
    intro bits? acc hbad
    by_cases hk1 : k = "type"
    · subst hk1
      match v, hbad with
      | .null, _ => simp [decodeAnswerFields, isErr]
      | .bool b', _ => simp [decodeAnswerFields, isErr]
      | .num n', _ => simp [decodeAnswerFields, isErr]
      | .arr xs, _ => simp [decodeAnswerFields, isErr]
      | .obj o', _ => simp [decodeAnswerFields, isErr]
      | .str s', hbad => simp [typeFieldBad, findJson] at hbad
    · have hbad' : typeFieldBad m = true := by
        simpa [typeFieldBad, findJson, hk1] using hbad
      by_cases hk2 : k = "bitSet"
      · subst hk2
        cases bits? with
        | some b => simp [decodeAnswerFields, hk1, isErr]
        | none =>
          match v with
          | .null => simpa [decodeAnswerFields, hk1] using ih (some none) acc hbad'
          | .bool b' => simp [decodeAnswerFields, hk1, decodeBytes, isErr]
          | .num n' => simp [decodeAnswerFields, hk1, decodeBytes, isErr]
          | .str s' => simp [decodeAnswerFields, hk1, decodeBytes, isErr]
          | .obj o' => simp [decodeAnswerFields, hk1, decodeBytes, isErr]
          | .arr xs =>
            rcases hbs : bytesAux xs with _ | bs
            · simp [decodeAnswerFields, hk1, decodeBytes, hbs, isErr]
            · simpa [decodeAnswerFields, hk1, decodeBytes, hbs] using
                ih (some (some bs)) acc hbad'
      · simpa [decodeAnswerFields, hk1, hk2] using ih bits? ((k, v) :: acc) hbad'

lemma stripMeta_id (rest : List (String × Json))
    (hT : "type" ∉ rest.map Prod.fst) (hB : "bitSet" ∉ rest.map Prod.fst) :
    stripMeta rest = rest := by
  induction rest with
  | nil => rfl
  | cons p r ih =>
    obtain ⟨k, v⟩ := p
    simp only [List.map_cons, List.mem_cons, not_or] at hT hB
    rw [stripMeta_cons_other v r (Ne.symm hT.1) (Ne.symm hB.1), ih hT.2 hB.2]

lemma bytesAux_encode (bs : List Json) :
    ∀ ns : List Nat, bytesAux bs = some ns →
    ns.map (fun n => Json.num (Int.ofNat n)) = bs := by
  induction bs with
  | nil => intro ns h; simp only [bytesAux, Option.some.injEq] at h; subst h; rfl
  | cons x bs ih =>
    intro ns h
    cases x with
    | num n =>
      simp only [bytesAux] at h
      by_cases hr : 0 ≤ n ∧ n < 256
      · rw [if_pos hr] at h
        rcases hrec : bytesAux bs with _ | ns'
        · rw [hrec] at h; exact absurd h (by simp)
        · rw [hrec] at h
          simp only [Option.some.injEq] at h
          subst h
          have h1 : Int.ofNat n.toNat = n := by
            rw [Int.ofNat_eq_natCast]
            exact Int.toNat_of_nonneg hr.1
          simp only [List.map_cons]
          rw [h1, ih ns' hrec]
      · rw [if_neg hr] at h; exact absurd h (by simp)
    | null => simp [bytesAux] at h
    | bool b => simp [bytesAux] at h
    | str s => simp [bytesAux] at h
    | arr xs => simp [bytesAux] at h
    | obj o => simp [bytesAux] at h

lemma encodeBits_of_decode (v : Json) (ns : List Nat)
    (h : decodeBytes v = some ns) : encodeBits (some ns) = v := by
  cases v with
  | arr items =>
    simp only [decodeBytes] at h
    show Json.arr (ns.map fun n => Json.num (Int.ofNat n)) = Json.arr items
    exact congrArg Json.arr (bytesAux_encode items ns h)
  | null => simp [decodeBytes] at h
  | bool b => simp [decodeBytes] at h
  | num n => simp [decodeBytes] at h
  | str s => simp [decodeBytes] at h
  | obj o => simp [decodeBytes] at h

/-- C1 counterexample: the object with discriminant `TTS` and a sibling
`text` field decodes to the `Unknown` fallback, not to `Tts`; the typed
variant requires the payload nested under a sibling `tts` key. -/
theorem claim1_counterexample :
    decodeAnswer (.obj [("type", .str "TTS"), ("text", .str "hello")]) =
      .ok ⟨"TTS", none, .Unknown [("text", .str "hello")]⟩ ∧
    decodeAnswer (.obj [("type", .str "TTS"), ("text", .str "hello")]) ≠
      .ok ⟨"TTS", none, .Tts "hello"⟩ := by
  refine ⟨rfl, fun h => ?_⟩
  have h' : (Except.ok (⟨"TTS", none, .Unknown [("text", .str "hello")]⟩ : Answer) :
      Except DecodeError Answer) = .ok ⟨"TTS", none, .Tts "hello"⟩ := h
  simp at h'

/-- C1 (amended): whenever a well-formed object's fields other than
`type` and `bitSet` consist of the single key `tts` (resp. `llm`)
bound to content carrying a string `text` — an object with a string
`text` field, or a one-element sequence holding a string, serde's two
struct forms — decoding yields the typed variant `Tts` (resp. `Llm`)
with that exact text; the discriminant value itself does not select
the variant. -/
theorem claim1_theorem (m : List (String × Json)) (t s : String)
    (bits : Option (List Nat)) (p : Json)
    (hnd : (m.map Prod.fst).Nodup)
    (ht : findJson m "type" = some (.str t))
    (hb : bitsOf m = .ok bits)
    (htext : textOf p = some s) :
    (stripMeta m = [("tts", p)] →
      decodeAnswer (.obj m) = .ok ⟨t, bits, .Tts s⟩) ∧
    (stripMeta m = [("llm", p)] →
      decodeAnswer (.obj m) = .ok ⟨t, bits, .Llm s⟩) := by
  have hchar := decodeAnswer_obj_nodup m t bits hnd ht hb
  constructor <;> intro hstrip <;> rw [hchar, hstrip] <;>
    simp [mkPayload, htext]

/-- C1 witness: the nested object form of the spec's example decodes
to the typed `Tts` variant with the exact text, and so does the
positional one-element sequence form. -/
theorem claim1_witness :
    decodeAnswer (.obj [("type", .str "TTS"), ("tts", .obj [("text", .str "hello")])]) =
      .ok ⟨"TTS", none, .Tts "hello"⟩ ∧
    decodeAnswer (.obj [("type", .str "TTS"), ("tts", .arr [.str "hello"])]) =
      .ok ⟨"TTS", none, .Tts "hello"⟩ :=
  ⟨(claim1_theorem [("type", .str "TTS"), ("tts", .obj [("text", .str "hello")])]
    "TTS" "hello" none (.obj [("text", .str "hello")]) (by decide) rfl rfl rfl).1 rfl,
   (claim1_theorem [("type", .str "TTS"), ("tts", .arr [.str "hello"])]
    "TTS" "hello" none (.arr [.str "hello"]) (by decide) rfl rfl rfl).1 rfl⟩

/-- C2 counterexample: a novel discriminant decodes to `Unknown`, but the
captured mapping does not contain the discriminant field `type` (it was
consumed by the `kind` field), contradicting the claim. -/
theorem claim2_counterexample :
    decodeAnswer (.obj [("type", .str "NEWFEATURE"), ("foo", .num 1), ("bar", .str "x")]) =
      .ok ⟨"NEWFEATURE", none, .Unknown [("foo", .num 1), ("bar", .str "x")]⟩ ∧
    "type" ∉ ([("foo", Json.num 1), ("bar", Json.str "x")]).map Prod.fst :=
  ⟨rfl, by decide⟩

/-- C2 (amended): whenever `type` is a string, the `bitSet` field (if
present) is well-formed, and the remaining fields do not form a
well-formed `tts`/`llm` payload, decoding succeeds with `Unknown`
capturing every field except `type` and `bitSet` — in particular any
novel discriminant decodes successfully; the discriminant is kept in
`kind`, not in the captured mapping. -/
theorem claim2_theorem (m : List (String × Json)) (t : String)
    (bits : Option (List Nat))
    (hnd : (m.map Prod.fst).Nodup)
    (ht : findJson m "type" = some (.str t))
    (hb : bitsOf m = .ok bits)
    (hu : mkPayload (stripMeta m) = .Unknown (stripMeta m)) :
    decodeAnswer (.obj m) = .ok ⟨t, bits, .Unknown (stripMeta m)⟩ ∧
    "type" ∉ (stripMeta m).map Prod.fst ∧
    "bitSet" ∉ (stripMeta m).map Prod.fst := by
  refine ⟨?_, (stripMeta_no_meta m).1, (stripMeta_no_meta m).2⟩
  rw [decodeAnswer_obj_nodup m t bits hnd ht hb, hu]

/-- C2 witness: the spec's novel-discriminant example, decoded through
the amended statement. -/
theorem claim2_witness :
    decodeAnswer (.obj [("type", .str "NEWFEATURE"), ("foo", .num 1)]) =
      .ok ⟨"NEWFEATURE", none, .Unknown [("foo", .num 1)]⟩ ∧
    "type" ∉ (stripMeta [("type", .str "NEWFEATURE"), ("foo", .num 1)]).map Prod.fst := by
  have h := claim2_theorem [("type", .str "NEWFEATURE"), ("foo", .num 1)]
    "NEWFEATURE" none (by decide) rfl rfl rfl
  exact ⟨h.1, h.2.1⟩

/-- C3 counterexample: re-encoding the decoded form of an object without
a `bitSet` field adds a `bitSet: null` entry that the original object
did not contain, so the round trip is not key-exact. -/
theorem claim3_counterexample :
    decodeAnswer (.obj [("type", .str "X"), ("foo", .num 1)]) =
      .ok ⟨"X", none, .Unknown [("foo", .num 1)]⟩ ∧
    encodeAnswer ⟨"X", none, .Unknown [("foo", .num 1)]⟩ =
      .obj [("type", .str "X"), ("bitSet", .null), ("foo", .num 1)] ∧
    "bitSet" ∉ ([("type", Json.str "X"), ("foo", Json.num 1)]).map Prod.fst :=
  ⟨rfl, rfl, by decide⟩

/-- C3 (amended): re-encoding emits `type`, then `bitSet` (null when the
answer has none), then the payload — nested under the variant key for
`Tts`/`Llm`, spread for `Unknown`.  For an object in that canonical
order with a well-formed `bitSet` present and an `Unknown` payload, the
decode/encode round trip is the identity. -/
theorem claim3_theorem (t s : String) (bs : List Json) (ns : List Nat)
    (rest : List (String × Json))
    (hbs : decodeBytes (.arr bs) = some ns)
    (hu : mkPayload rest = .Unknown rest)
    (hT : "type" ∉ rest.map Prod.fst) (hB : "bitSet" ∉ rest.map Prod.fst) :
    (decodeAnswer (.obj (("type", .str t) :: ("bitSet", .arr bs) :: rest)) =
      .ok ⟨t, some ns, .Unknown rest⟩ ∧
     encodeAnswer ⟨t, some ns, .Unknown rest⟩ =
      .obj (("type", .str t) :: ("bitSet", .arr bs) :: rest)) ∧
    encodeAnswer ⟨t, some ns, .Tts s⟩ =
      .obj [("type", .str t), ("bitSet", .arr bs),
        ("tts", .obj [("text", .str s)])] := by
  have hstrip : stripMeta (("type", Json.str t) :: ("bitSet", Json.arr bs) :: rest) = rest := by
    rw [stripMeta_cons_type, stripMeta_cons_bits, stripMeta_id rest hT hB]
  refine ⟨⟨?_, ?_⟩, ?_⟩
  · rw [decodeAnswer_obj _ t (some ns) ?_ ?_ ?_ ?_, hstrip, hu]
    · simp [findJson]
    · simp [List.count_cons, List.count_eq_zero.mpr hT]
    · simp [bitsOf, findJson, hbs]
    · simp [List.count_cons, List.count_eq_zero.mpr hB]
  · simp [encodeAnswer, encodePayloadFields, encodeBits_of_decode _ _ hbs]
  · simp [encodeAnswer, encodePayloadFields, encodeBits_of_decode _ _ hbs]

/-- C3 witness: a concrete round trip through decode and encode. -/
theorem claim3_witness :
    decodeAnswer (.obj [("type", .str "X"), ("bitSet", .arr [.num 3]), ("foo", .num 1)]) =
      .ok ⟨"X", some [3], .Unknown [("foo", .num 1)]⟩ ∧
    encodeAnswer ⟨"X", some [3], .Unknown [("foo", .num 1)]⟩ =
      .obj [("type", .str "X"), ("bitSet", .arr [.num 3]), ("foo", .num 1)] := by
  have h := claim3_theorem "X" "hi" [.num 3] [3] [("foo", .num 1)]
    rfl rfl (by decide) (by decide)
  exact h.1

/-- C5: if the discriminant field `type` is missing or its value is not
a string, decoding the object fails, whatever the other fields are. -/
theorem claim5_theorem (m : List (String × Json))
    (h : typeFieldBad m = true) :
    isErr (decodeAnswer (.obj m)) = true := by
  have herr := decodeAnswerFields_err m none [] h
  rcases hd : decodeAnswerFields m none none [] with e | ⟨t, bits, rest⟩
  · simp [decodeAnswer, hd, isErr]
  · rw [hd] at herr; simp [isErr] at herr

/-- C5 witness: an object with no `type` field and a malformed sibling
fails to decode, and so does an object whose `type` is a number. -/
theorem claim5_witness :
    isErr (decodeAnswer (.obj [("bitSet", .str "oops"), ("foo", .num 1)])) = true ∧
    isErr (decodeAnswer (.obj [("type", .num 3), ("text", .str "hello")])) = true :=
  ⟨claim5_theorem [("bitSet", .str "oops"), ("foo", .num 1)] (by decide),
   claim5_theorem [("type", .num 3), ("text", .str "hello")] (by decide)⟩

lemma decodeRecords_err (rs : List Json)
    (h : ∃ r ∈ rs, isErr (decodeRecord r) = true) :
    isErr (decodeRecords rs) = true := by
  induction rs with
  | nil => simp at h
  | cons x xs ih =>
    rcases h with ⟨r, hr, hbad⟩
    rcases List.mem_cons.mp hr with rfl | hr'
    · rcases hx : decodeRecord r with e | a
      · simp [decodeRecords, hx, isErr]
      · rw [hx] at hbad; simp [isErr] at hbad
    · rcases hx : decodeRecord x with e | a
      · simp [decodeRecords, hx, isErr]
      · have := ih ⟨r, hr', hbad⟩
        rcases hrec : decodeRecords xs with e' | rest
        · simp [decodeRecords, hx, hrec, isErr]
        · rw [hrec] at this; simp [isErr] at this

/-- C6 counterexample: a batch with one malformed record (answer missing
its `type`) fails to decode as a whole, even though the sibling record
decodes fine on its own — deserialization of the record vector is
all-or-nothing, so the failure is not local to the bad record. -/
theorem claim6_counterexample :
    decodeData (.obj [("records", .arr
      [.obj [("answers", .arr [.obj [("foo", .num 1)]]), ("query", .str "q"),
             ("requestId", .str "r"), ("time", .num 0)],
       .obj [("answers", .arr []), ("query", .str "q2"),
             ("requestId", .str "r2"), ("time", .num 1)]])]) =
      .error (.missingField "type") ∧
    decodeRecord (.obj [("answers", .arr []), ("query", .str "q2"),
      ("requestId", .str "r2"), ("time", .num 1)]) =
      .ok ⟨[], "q2", "r2", 1⟩ ∧
    isErr (decodeRecord (.obj [("answers", .arr [.obj [("foo", .num 1)]]),
      ("query", .str "q"), ("requestId", .str "r"), ("time", .num 0)])) = true :=
  ⟨rfl, rfl, rfl⟩

/-- C6 (amended): a `MalformedAnswer` failure in any one record of a
batch aborts decoding of the entire batch — sibling records are not
produced, because serde vector deserialization is fail-fast. -/
theorem claim6_theorem (rs : List Json)
    (h : ∃ r ∈ rs, isErr (decodeRecord r) = true) :
    isErr (decodeData (.obj [("records", .arr rs)])) = true := by
  have herr := decodeRecords_err rs h
  rcases hd : decodeRecords rs with e | rest
  · simp [decodeData, dataFields, hd, isErr]
  · rw [hd] at herr; simp [isErr] at herr

/-- C6 witness: the two-record batch from the counterexample falls under
the amended statement. -/
theorem claim6_witness :
    isErr (decodeData (.obj [("records", .arr
      [.obj [("answers", .arr [.obj [("foo", .num 1)]]), ("query", .str "q"),
             ("requestId", .str "r"), ("time", .num 0)],
       .obj [("answers", .arr []), ("query", .str "q2"),
             ("requestId", .str "r2"), ("time", .num 1)]])])) = true :=
  claim6_theorem _ ⟨.obj [("answers", .arr [.obj [("foo", .num 1)]]),
    ("query", .str "q"), ("requestId", .str "r"), ("time", .num 0)],
    by simp, rfl⟩

lemma legacyFields_answer (m : List (String × Json)) :
    ∀ (q? rid? : Option String) (t? : Option Int) (ans? : Option (List Json))
      (r : ConversationRecord),
    legacyFields m q? rid? t? ans? = .ok r → r.answer = "" := by
  induction m with
  | nil =>
    intro q? rid? t? ans? r h
    match q?, rid?, t?, ans?, h with
    | some q, some rid, some t, some a, h =>
      simp only [legacyFields, Except.ok.injEq] at h
      rw [← h]
  | cons p m ih =>
    obtain ⟨k, v⟩ := p
    intro q? rid? t? ans? r h
    by_cases h1 : k = "query"
    · subst h1
      match q?, v, h with
      | none, .str s, h =>
        exact ih _ _ _ _ r (by simpa [legacyFields] using h)
    · by_cases h2 : k = "requestId"
      · subst h2
        match rid?, v, h with
        | none, .str s, h =>
          exact ih _ _ _ _ r (by simpa [legacyFields, h1] using h)
      · by_cases h3 : k = "time"
        · subst h3
          match t?, v, h with
          | none, .num n, h =>
            exact ih _ _ _ _ r (by simpa [legacyFields, h1, h2] using h)
        · by_cases h4 : k = "answers"
          · subst h4
            match ans?, v, h with
            | none, .arr xs, h =>
              exact ih _ _ _ _ r (by simpa [legacyFields, h1, h2, h3] using h)
          · exact ih _ _ _ _ r (by simpa [legacyFields, h1, h2, h3, h4] using h)

/-- C10 counterexample: a first answer whose payload key holds a value
that is not an object with a string `text` — here the one-element
sequence `["hello"]` — does not make `from_value` fail: serde also
deserializes the `Payload` struct positionally from a sequence, so the
call succeeds with `answer` set to `hello` (and the payload value
taken, leaving null behind). -/
theorem claim10_counterexample :
    fromValue (.obj [("query", .str "q"), ("requestId", .str "r"),
      ("time", .num 0),
      ("answers", .arr [.obj [("type", .str "TTS"), ("tts", .arr [.str "hello"])]])]) =
      .ok ⟨"hello", "q", "r", 0, [.obj [("type", .str "TTS"), ("tts", .null)]]⟩ ∧
    isErr (fromValue (.obj [("query", .str "q"), ("requestId", .str "r"),
      ("time", .num 0),
      ("answers", .arr [.obj [("type", .str "TTS"), ("tts", .arr [.str "hello"])]])])) =
      false :=
  ⟨rfl, rfl⟩

/-- C10 (amended): after a successful derived decode, `from_value`
succeeds with `answer` left empty when the answers list is empty, when
the first answer has no string `type`, or when no key equals the
ASCII-lowercase of the `type` value; when such a key exists, content
carrying a string `text` (an object with a string `text` field, or a
one-element sequence holding a string) yields that text in `answer`
with the payload value taken (replaced by null), and any other content
makes `from_value` fail. -/
theorem claim10_theorem (v : Json) (r0 : ConversationRecord)
    (h : decodeLegacyBase v = .ok r0) :
    r0.answer = "" ∧
    (r0.answers = [] → fromValue v = .ok r0) ∧
    (∀ a rest, r0.answers = a :: rest → typeStr a = none →
      fromValue v = .ok r0) ∧
    (∀ a rest ty, r0.answers = a :: rest → typeStr a = some ty →
      getKey a (lowerAscii ty) = none → fromValue v = .ok r0) ∧
    (∀ a rest ty p, r0.answers = a :: rest → typeStr a = some ty →
      getKey a (lowerAscii ty) = some p → textOf p = none →
      isErr (fromValue v) = true) ∧
    (∀ a rest ty p s, r0.answers = a :: rest → typeStr a = some ty →
      getKey a (lowerAscii ty) = some p → textOf p = some s →
      fromValue v = .ok { r0 with
        answer := s
        answers := (setKey a (lowerAscii ty) Json.null) :: rest }) := by
  have hans : r0.answer = "" := by
    cases v with
    | obj m => exact legacyFields_answer m none none none none r0 h
    | null => simp [decodeLegacyBase] at h
    | bool b => simp [decodeLegacyBase] at h
    | num n => simp [decodeLegacyBase] at h
    | str s => simp [decodeLegacyBase] at h
    | arr xs => simp [decodeLegacyBase] at h
  refine ⟨hans, ?_, ?_, ?_, ?_, ?_⟩
  · intro hnil; simp [fromValue, h, hnil]
  · intro a rest hcons hty; simp [fromValue, h, hcons, hty]
  · intro a rest ty hcons hty hkey; simp [fromValue, h, hcons, hty, hkey]
  · intro a rest ty p hcons hty hkey htext
    simp [fromValue, h, hcons, hty, hkey, htext, isErr]
  · intro a rest ty p s hcons hty hkey htext
    simp [fromValue, h, hcons, hty, hkey, htext]

/-- C10 witness: concrete records exercising the empty-answers success
case, the failure case (payload content carrying no string text) and
the sequence-payload success case. -/
theorem claim10_witness :
    fromValue (.obj [("query", .str "q"), ("requestId", .str "r"),
      ("time", .num 0), ("answers", .arr [])]) =
      .ok ⟨"", "q", "r", 0, []⟩ ∧
    isErr (fromValue (.obj [("query", .str "q"), ("requestId", .str "r"),
      ("time", .num 0),
      ("answers", .arr [.obj [("type", .str "TTS"), ("tts", .num 5)]])])) = true ∧
    fromValue (.obj [("query", .str "q2"), ("requestId", .str "r2"),
      ("time", .num 1),
      ("answers", .arr [.obj [("type", .str "TTS"), ("tts", .arr [.str "hi"])]])]) =
      .ok ⟨"hi", "q2", "r2", 1, [.obj [("type", .str "TTS"), ("tts", .null)]]⟩ := by
  refine ⟨?_, ?_, ?_⟩
  · exact (claim10_theorem (.obj [("query", .str "q"), ("requestId", .str "r"),
      ("time", .num 0), ("answers", .arr [])]) ⟨"", "q", "r", 0, []⟩ rfl).2.1 rfl
  · exact (claim10_theorem (.obj [("query", .str "q"), ("requestId", .str "r"),
      ("time", .num 0),
      ("answers", .arr [.obj [("type", .str "TTS"), ("tts", .num 5)]])])
      ⟨"", "q", "r", 0, [.obj [("type", .str "TTS"), ("tts", .num 5)]]⟩ rfl).2.2.2.2.1
      (.obj [("type", .str "TTS"), ("tts", .num 5)]) [] "TTS" (.num 5)
      rfl rfl rfl rfl
  · exact (claim10_theorem (.obj [("query", .str "q2"), ("requestId", .str "r2"),
      ("time", .num 1),
      ("answers", .arr [.obj [("type", .str "TTS"), ("tts", .arr [.str "hi"])]])])
      ⟨"", "q2", "r2", 1, [.obj [("type", .str "TTS"), ("tts", .arr [.str "hi"])]]⟩
      rfl).2.2.2.2.2
      (.obj [("type", .str "TTS"), ("tts", .arr [.str "hi"])]) [] "TTS"
      (.arr [.str "hi"]) "hi" rfl rfl rfl rfl

/-- C7 counterexample: with a failing credential load, a second call to
the memoized session loader performs a second underlying load attempt —
`get_or_try_init` does not cache failures, contradicting "a second call
after a failed first call does not trigger a second load attempt". -/
theorem claim7_counterexample :
    (cliXiaoai ⟨.error .loadFailed, .error .fetchFailed, fun _ => .error .inputCancelled⟩
      ⟨none, none, 0, 0, 0⟩).1 = .error .loadFailed ∧
    ((cliXiaoai ⟨.error .loadFailed, .error .fetchFailed, fun _ => .error .inputCancelled⟩
      (cliXiaoai ⟨.error .loadFailed, .error .fetchFailed, fun _ => .error .inputCancelled⟩
        ⟨none, none, 0, 0, 0⟩).2).2).loads = 2 :=
  ⟨rfl, rfl⟩

/-- C7 (amended): a successful load or fetch is cached — later calls
return the same value with no further collaborator invocation; a failed
load or fetch returns the error but leaves the cell empty, so a repeat
call performs a fresh attempt (at-most-once holds only for successes). -/
theorem claim7_theorem :
    (∀ (env : Env) (st : St) (x : Xiaoai), st.xiaoaiCell = some x →
      cliXiaoai env st = (.ok x, st)) ∧
    (∀ (env : Env) (st : St) (x : Xiaoai),
      st.xiaoaiCell = none → env.loadResult = .ok x →
      cliXiaoai env st = (.ok x, { bumpLoad st with xiaoaiCell := some x }) ∧
      cliXiaoai env { bumpLoad st with xiaoaiCell := some x } =
        (.ok x, { bumpLoad st with xiaoaiCell := some x })) ∧
    (∀ (env : Env) (st : St) (e : CliErr),
      st.xiaoaiCell = none → env.loadResult = .error e →
      cliXiaoai env st = (.error e, bumpLoad st) ∧
      cliXiaoai env (bumpLoad st) = (.error e, bumpLoad (bumpLoad st))) ∧
    (∀ (env : Env) (st : St) (l : List DeviceInfo), st.deviceCell = some l →
      cliDeviceInfo env st = (.ok l, st)) ∧
    (∀ (env : Env) (st : St) (x : Xiaoai) (l : List DeviceInfo),
      st.deviceCell = none → st.xiaoaiCell = some x → env.fetchResult = .ok l →
      cliDeviceInfo env st = (.ok l, { bumpFetch st with deviceCell := some l }) ∧
      cliDeviceInfo env { bumpFetch st with deviceCell := some l } =
        (.ok l, { bumpFetch st with deviceCell := some l })) ∧
    (∀ (env : Env) (st : St) (x : Xiaoai) (e : CliErr),
      st.deviceCell = none → st.xiaoaiCell = some x → env.fetchResult = .error e →
      cliDeviceInfo env st = (.error e, bumpFetch st) ∧
      cliDeviceInfo env (bumpFetch st) = (.error e, bumpFetch (bumpFetch st))) := by
  refine ⟨?_, ?_, ?_, ?_, ?_, ?_⟩
  · intro env st x h; simp [cliXiaoai, h]
  · intro env st x h1 h2
    exact ⟨by simp [cliXiaoai, h1, h2], by simp [cliXiaoai, bumpLoad]⟩
  · intro env st e h1 h2
    exact ⟨by simp [cliXiaoai, h1, h2], by simp [cliXiaoai, bumpLoad, h1, h2]⟩
  · intro env st l h; simp [cliDeviceInfo, h]
  · intro env st x l h1 h2 h3
    exact ⟨by simp [cliDeviceInfo, cliXiaoai, h1, h2, h3],
           by simp [cliDeviceInfo, bumpFetch]⟩
  · intro env st x e h1 h2 h3
    exact ⟨by simp [cliDeviceInfo, cliXiaoai, h1, h2, h3],
           by simp [cliDeviceInfo, cliXiaoai, bumpFetch, h1, h2, h3]⟩

/-- C7 witness: a successful load fills the cell after one attempt; a
failing load reports the failure after one attempt (and, per the
counterexample, a repeat attempts again). -/
theorem claim7_witness :
    cliXiaoai ⟨.ok ⟨5⟩, .ok [], fun _ => .error .inputCancelled⟩
      ⟨none, none, 0, 0, 0⟩ = (.ok ⟨5⟩, ⟨some ⟨5⟩, none, 1, 0, 0⟩) ∧
    cliXiaoai ⟨.error .loadFailed, .ok [], fun _ => .error .inputCancelled⟩
      ⟨none, none, 0, 0, 0⟩ = (.error .loadFailed, ⟨none, none, 1, 0, 0⟩) :=
  ⟨(claim7_theorem.2.1 ⟨.ok ⟨5⟩, .ok [], fun _ => .error .inputCancelled⟩
      ⟨none, none, 0, 0, 0⟩ ⟨5⟩ rfl rfl).1,
   (claim7_theorem.2.2.1 ⟨.error .loadFailed, .ok [], fun _ => .error .inputCancelled⟩
      ⟨none, none, 0, 0, 0⟩ .loadFailed rfl rfl).1⟩

/-- C8: resolving without an explicit identifier: an empty device list
fails with the no-devices error; a single device is returned without
consulting the selector (state unchanged); two or more devices invoke
the selector exactly once and its choice's identifier is returned. -/
theorem claim8_theorem (env : Env) (st st' : St) (l : List DeviceInfo)
    (h : cliDeviceInfo env st = (.ok l, st')) :
    (l = [] → cliDeviceId env none st = (.error .noDevicesBound, st')) ∧
    (∀ d, l = [d] → cliDeviceId env none st = (.ok d.device_id, st')) ∧
    (2 ≤ l.length →
      cliDeviceId env none st =
        ((env.selectResult l).map (fun d => d.device_id), bumpSelect st')) := by
  refine ⟨?_, ?_, ?_⟩
  · intro hl; subst hl; simp [cliDeviceId, h]
  · intro d hl; subst hl; simp [cliDeviceId, h]
  · intro hl
    match l, h, hl with
    | a :: b :: rest, h, _ =>
      rcases hs : env.selectResult (a :: b :: rest) with e | d <;>
        simp [cliDeviceId, h, hs, Except.map]

/-- C8 witness: each arity case at a concrete cached device list, under
collaborators whose fetch would fail (the cache makes this moot). -/
theorem claim8_witness :
    cliDeviceId ⟨.ok ⟨1⟩, .error .fetchFailed, fun _ => .error .inputCancelled⟩ none
      ⟨some ⟨1⟩, some [], 0, 0, 0⟩ =
      (.error .noDevicesBound, ⟨some ⟨1⟩, some [], 0, 0, 0⟩) ∧
    cliDeviceId ⟨.ok ⟨1⟩, .error .fetchFailed, fun _ => .error .inputCancelled⟩ none
      ⟨some ⟨1⟩, some [⟨"d1", "n", "h"⟩], 0, 0, 0⟩ =
      (.ok "d1", ⟨some ⟨1⟩, some [⟨"d1", "n", "h"⟩], 0, 0, 0⟩) ∧
    cliDeviceId ⟨.ok ⟨1⟩, .error .fetchFailed,
        fun _ => .ok ⟨"d2", "n2", "h2"⟩⟩ none
      ⟨some ⟨1⟩, some [⟨"d1", "n", "h"⟩, ⟨"d2", "n2", "h2"⟩], 0, 0, 0⟩ =
      (.ok "d2", ⟨some ⟨1⟩, some [⟨"d1", "n", "h"⟩, ⟨"d2", "n2", "h2"⟩], 0, 0, 1⟩) :=
  ⟨(claim8_theorem ⟨.ok ⟨1⟩, .error .fetchFailed, fun _ => .error .inputCancelled⟩
      ⟨some ⟨1⟩, some [], 0, 0, 0⟩ ⟨some ⟨1⟩, some [], 0, 0, 0⟩ [] rfl).1 rfl,
   (claim8_theorem ⟨.ok ⟨1⟩, .error .fetchFailed, fun _ => .error .inputCancelled⟩
      ⟨some ⟨1⟩, some [⟨"d1", "n", "h"⟩], 0, 0, 0⟩
      ⟨some ⟨1⟩, some [⟨"d1", "n", "h"⟩], 0, 0, 0⟩
      [⟨"d1", "n", "h"⟩] rfl).2.1 ⟨"d1", "n", "h"⟩ rfl,
   (claim8_theorem ⟨.ok ⟨1⟩, .error .fetchFailed, fun _ => .ok ⟨"d2", "n2", "h2"⟩⟩
      ⟨some ⟨1⟩, some [⟨"d1", "n", "h"⟩, ⟨"d2", "n2", "h2"⟩], 0, 0, 0⟩
      ⟨some ⟨1⟩, some [⟨"d1", "n", "h"⟩, ⟨"d2", "n2", "h2"⟩], 0, 0, 0⟩
      [⟨"d1", "n", "h"⟩, ⟨"d2", "n2", "h2"⟩] rfl).2.2 (by decide)⟩

/-- C9: with an explicit device identifier the resolver returns it at
once with the state untouched — no session load, no device-list fetch,
no selector call — for every environment, including ones whose load or
fetch would fail. -/
theorem claim9_theorem (env : Env) (st : St) (id : String) :
    cliDeviceId env (some id) st = (.ok id, st) := rfl
